import Mathlib

/-!
Verification of the tethne TAP (topic-affinity-propagation) core and the
`Paper` record class.

The `Paper` class is embedded from `src/tethne/classes/paper.py`.  The
single-slice inference engine (`TAPModel`, spec name `InfluenceModel`) and the
cross-slice orchestrator's `author_theta` aggregation are not present in the
source tree (only their tests are), so they are modelled from the spec, as
indicated by the doc comments of the corresponding definitions.

Python values are embedded as the inductive `PyVal`; real numbers are
embedded as rationals `ℚ`; raised exceptions are embedded as `Except` /
`Option` error results, with the pre-raise state returned unchanged where the
source raises before mutating.
-/

/-! ## Generic list helpers used by the embedding -/

/-- Dot product of two rational vectors, truncating at the shorter one
(zip-with-multiply then sum, as `numpy` elementwise product of equal-width
vectors). -/
def dotQ : List ℚ → List ℚ → ℚ
  | x :: xs, y :: ys => x * y + dotQ xs ys
  | _, _ => 0

/-- Entry `i` of a rational vector, defaulting to `0` out of range. -/
def getQ (l : List ℚ) (i : Nat) : ℚ :=
  l.getD i 0

/-- Entry `(i, k)` of a rational matrix stored as rows, defaulting to `0`. -/
def get2 (m : List (List ℚ)) (i k : Nat) : ℚ :=
  (m.getD i []).getD k 0

/-- Maximum of a list of rationals (`0` for the empty list). -/
def maxList : List ℚ → ℚ
  | [] => 0
  | [x] => x
  | x :: y :: t => max x (maxList (y :: t))

/-- Fold computing the first index of a maximal element, carrying the best
`(index, value)` seen so far. -/
def argmaxAux : List ℚ → Nat → Nat × ℚ → Nat × ℚ
  | [], _, best => best
  | x :: t, i, best => argmaxAux t (i + 1) (if best.2 < x then (i, x) else best)

/-- First index of a maximal element of a rational vector (`0` for `[]`). -/
def argmaxIdx : List ℚ → Nat
  | [] => 0
  | x :: t => (argmaxAux t 1 (0, x)).1

/-- An `N × N` zero matrix as nested lists. -/
def zeros (n : Nat) : List (List ℚ) :=
  List.replicate n (List.replicate n (0 : ℚ))

/-! ## The `Paper` record class (`src/tethne/classes/paper.py`) -/

/-- A Python value, as far as `Paper.__setitem__`'s exact-type checks and
`Paper.authors`'s iteration need to distinguish them.  `vstr` and `vuni` are
Python 2 `str` and `unicode`. -/
inductive PyVal where
  | vnone
  | vbool (b : Bool)
  | vint (n : Int)
  | vstr (s : String)
  | vuni (s : String)
  | vlist (xs : List PyVal)
  | vdict (kvs : List (String × PyVal))

/-- Exceptions raised by the `Paper` methods. -/
inductive PyErr where
  | keyError
  | valueError
  | typeError
deriving DecidableEq

/-- `type(value) is list` for the embedded values. -/
def PyVal.isL : PyVal → Bool
  | .vlist _ => true
  | _ => false

/-- `type(value) is str` for the embedded values. -/
def PyVal.isS : PyVal → Bool
  | .vstr _ => true
  | _ => false

/-- `type(value) is unicode` for the embedded values. -/
def PyVal.isU : PyVal → Bool
  | .vuni _ => true
  | _ => false

/-- `type(value) is int` for the embedded values (Python 2 `type` is the
exact type, so `bool` values are not `int`). -/
def PyVal.isI : PyVal → Bool
  | .vint _ => true
  | _ => false

/-- `type(value) is dict` for the embedded values. -/
def PyVal.isD : PyVal → Bool
  | .vdict _ => true
  | _ => false

/-- `value is None` for the embedded values. -/
def PyVal.isN : PyVal → Bool
  | .vnone => true
  | _ => false

/-- A `Paper` is a dict; embedded as an association list over its fixed key
set. -/
def Paper := List (String × PyVal)

/-- The key set of the `fields` dict of `Paper.__init__`, in source order. -/
def paperVocab : List String :=
  ["aulast", "auinit", "institutions", "atitle", "jtitle", "volume", "issue",
   "spage", "epage", "date", "citations", "country", "ayjid", "doi", "pmid",
   "wosid", "eid", "abstract", "accession", "topics"]

/-- `Paper.__init__`: every vocabulary key is bound to `None`. -/
def Paper.mkInit : Paper :=
  paperVocab.map (fun k => (k, PyVal.vnone))

/-- `self.list_fields` from `Paper.__init__`. -/
def list_fields : List String :=
  ["aulast", "auinit", "citations"]

/-- `self.string_fields` from `Paper.__init__`. -/
def string_fields : List String :=
  ["atitle", "jtitle", "volume", "issue", "spage", "epage", "ayjid", "doi",
   "eid", "pmid", "wosid", "abstract", "accession"]

/-- `self.int_fields` from `Paper.__init__`. -/
def int_fields : List String :=
  ["date"]

/-- `self.dict_fields` from `Paper.__init__`. -/
def dict_fields : List String :=
  ["institutions"]

/-- `self.keys()` of the embedded dict. -/
def keysOf (p : Paper) : List String :=
  p.map Prod.fst

/-- Replace the binding of an existing key (``dict.__setitem__`` on a key
already present). -/
def setAssoc (p : Paper) (k : String) (v : PyVal) : Paper :=
  p.map (fun kv => if kv.1 = k then (k, v) else kv)

/-- `Paper.__setitem__`: the vocabulary check and the per-kind exact-type
checks, in source order; returns the post-state together with the raised
exception, if any.  Every `raise` in the source happens before the
`dict.__setitem__` call, so the state is returned unchanged on error. -/
def Paper.setitem (p : Paper) (k : String) (v : PyVal) : Paper × Option PyErr :=
  if ¬ (keysOf p).contains k then
    (p, some PyErr.keyError)
  else if list_fields.contains k && !v.isL && !v.isN then
    (p, some PyErr.valueError)
  else if string_fields.contains k && !v.isS && !v.isU && !v.isN then
    (p, some PyErr.valueError)
  else if int_fields.contains k && !v.isI && !v.isN then
    (p, some PyErr.valueError)
  else if dict_fields.contains k && !v.isD && !v.isN then
    (p, some PyErr.valueError)
  else
    (setAssoc p k v, Option.none)

/-- `self[key]` on a `Paper` (plain dict lookup; the vocabulary keys are
always present). -/
def pyLookup (p : Paper) (k : String) : PyVal :=
  (List.lookup k p).getD PyVal.vnone

/-- `str.upper()`, on the character list to keep it computable by the
kernel. -/
def pyUpper (s : String) : String :=
  String.mk (s.data.map Char.toUpper)

/-- What Python iteration yields for each value: lists yield their elements,
strings their characters, dicts their keys; other values are not iterable
(`zip` raises `TypeError` on them). -/
def iterOf : PyVal → Option (List PyVal)
  | .vlist xs => some xs
  | .vstr s => some (s.data.map (fun c => PyVal.vstr (String.mk [c])))
  | .vuni s => some (s.data.map (fun c => PyVal.vuni (String.mk [c])))
  | .vdict kvs => some (kvs.map (fun kv => PyVal.vstr kv.1))
  | _ => Option.none

/-- The string content of a `str` or `unicode` value. -/
def asStr : PyVal → Option String
  | .vstr s => some s
  | .vuni s => some s
  | _ => Option.none

/-- `' '.join([a, l]).upper()` for one zipped pair, raising `TypeError` when
either component is not a string (as `str.join` does). -/
def joinUp (q : PyVal × PyVal) : Except PyErr String :=
  match asStr q.1, asStr q.2 with
  | some a, some l => .ok (pyUpper (a ++ " " ++ l))
  | _, _ => .error PyErr.typeError

/-- The string built by `joinUp` when both components are strings. -/
def fmtPair (q : PyVal × PyVal) : String :=
  pyUpper ((asStr q.1).getD "" ++ " " ++ (asStr q.2).getD "")

/-- `Paper.authors`: `[]` when `aulast` is `None`, otherwise the uppercased
`' '.join([a, l])` over `zip(self['aulast'], self['auinit'])`, raising
`TypeError` where the Python code would (zipping a non-iterable, or joining
non-strings). -/
def Paper.authors (p : Paper) : Except PyErr (List String) :=
  match pyLookup p "aulast" with
  | .vnone => .ok []
  | au =>
    match iterOf au, iterOf (pyLookup p "auinit") with
    | some aus, some ins => (aus.zip ins).mapM joinUp
    | _, _ => .error PyErr.typeError

/-! ## The single-slice inference engine (spec `InfluenceModel`,
test name `TAPModel`) -/

/-- Modelled from the spec: errors of the TAP core (§7); `tapmodel.py` is
absent from the source tree, only its tests are present.  The tests observe
`NotReady` as a `RuntimeError`. -/
inductive TAPErr where
  | configurationError
  | dimensionMismatch
  | notReady
  | indexOutOfRange
deriving DecidableEq

/-- Modelled from the spec: a per-slice relationship graph — opaque node
identifiers (embedded as `Nat`) and undirected nonnegative-weight edges
(§3). -/
structure InGraph where
  nodes : List Nat
  edges : List (Nat × Nat × ℚ)

/-- Modelled from the spec: a directed influence graph over the slice's node
identifiers, with weighted directed edges (§3, §4.1). -/
structure DiGraph where
  nodes : List Nat
  edges : List (Nat × Nat × ℚ)

/-- Modelled from the spec: the `InfluenceModel` state (§3) — `N`, `T`, the
fixed `nodeOrder`, the per-node scores `g` and `b`, the message matrices
`r` and `a` (the dense `N × N` choice of §9), the previous assignment
`yold`, the iteration counter with its cap, and the influence-graph table
`MU` (absent, i.e. `Option.none`, until inference completes). -/
structure TAPModel where
  N : Nat
  T : Nat
  nodeOrder : List Nat
  thetaMat : List (List ℚ)
  g : List ℚ
  b : List ℚ
  s : List (List ℚ)
  r : List (List ℚ)
  a : List (List ℚ)
  yold : List Nat
  iteration : Nat
  maxIter : Nat
  MU : Option (List (Nat × DiGraph))

/-- Modelled from the spec: total weight between two node identifiers, read
off the undirected edge list (absent pairs weigh `0`). -/
def wOf (edges : List (Nat × Nat × ℚ)) (u v : Nat) : ℚ :=
  (edges.map (fun e =>
    if (e.1 = u ∧ e.2.1 = v) ∨ (e.1 = v ∧ e.2.1 = u) then e.2.2 else 0)).sum

/-- Modelled from the spec: the topic vector supplied for a node (the
node-topic mapping of §3). -/
def thetaOf (theta : List (Nat × List ℚ)) (n : Nat) : List ℚ :=
  (List.lookup n theta).getD []

/-- Modelled from the spec: all topic vectors share one width (construction
fails otherwise, §3/§4.1). -/
def widthsOK (theta : List (Nat × List ℚ)) : Bool :=
  (theta.map (fun kv => kv.2.length)).all
    (fun w => w == (theta.map (fun kv => kv.2.length)).headD 0)

/-- Modelled from the spec: every graph node has a topic vector (construction
fails otherwise, §4.1). -/
def coverOK (G : InGraph) (theta : List (Nat × List ℚ)) : Bool :=
  G.nodes.all (fun n => (List.lookup n theta).isSome)

/-- Modelled from the spec: the state built by a successful construction
(§4.1) — `nodeOrder` is the supplied node list; `g` aggregates each node's
edge-weighted topic similarity (dot product) to its neighbors; `b` is the
node's self-affinity; the score matrix `s` carries `b` on the diagonal and
the weighted similarity off it; `r` and `a` start as zero matrices; `yold`
is a zero vector of length `N`; `iteration` starts at `0`; `MU` is absent. -/
def mkTAP (G : InGraph) (theta : List (Nat × List ℚ)) (cap : Nat) : TAPModel :=
  let N := G.nodes.length
  let th := G.nodes.map (thetaOf theta)
  { N := N
    T := (theta.map (fun kv => kv.2.length)).headD 0
    nodeOrder := G.nodes
    thetaMat := th
    g := G.nodes.map (fun u =>
      ((G.nodes.filter (fun v => v != u)).map
        (fun v => wOf G.edges u v * dotQ (thetaOf theta u) (thetaOf theta v))).sum)
    b := G.nodes.map (fun u => dotQ (thetaOf theta u) (thetaOf theta u))
    s := (List.range N).map (fun i => (List.range N).map (fun k =>
      if i = k then dotQ (th.getD i []) (th.getD i [])
      else wOf G.edges (G.nodes.getD i 0) (G.nodes.getD k 0) *
        dotQ (th.getD i []) (th.getD k [])))
    r := zeros N
    a := zeros N
    yold := List.replicate N 0
    iteration := 0
    maxIter := cap
    MU := Option.none }

/-- Modelled from the spec: `Construction(graph, nodeTopicVectors)` (§4.1)
fails with a `ConfigurationError` on inconsistent vector widths or on a graph
node with no topic vector, and otherwise yields the initial state. -/
def TAPModel.init (G : InGraph) (theta : List (Nat × List ℚ)) (cap : Nat) :
    Except TAPErr TAPModel :=
  if widthsOK theta then
    if coverOK G theta then .ok (mkTAP G theta cap)
    else .error TAPErr.configurationError
  else .error TAPErr.configurationError

/-- Modelled from the spec: `updateResponsibility()` (§4.1), the standard
affinity-propagation rule on the topic-weighted scores — the responsibility
of `i` toward candidate exemplar `k` is the score of `k` minus the best
competing score-plus-availability among the other candidates. -/
def TAPModel.updateResponsibility (m : TAPModel) : TAPModel :=
  { m with r := (List.range m.N).map (fun i => (List.range m.N).map (fun k =>
      get2 m.s i k -
        maxList (((List.range m.N).filter (fun x => x != k)).map
          (fun x => get2 m.s i x + get2 m.a i x)))) }

/-- Modelled from the spec: `updateAvailability()` (§4.1), the standard rule —
self-availability accumulates the positive responsibilities from others;
cross-availability is capped at zero and penalizes over-subscription of an
exemplar. -/
def TAPModel.updateAvailability (m : TAPModel) : TAPModel :=
  { m with a := (List.range m.N).map (fun i => (List.range m.N).map (fun k =>
      if i = k then
        (((List.range m.N).filter (fun x => x != k)).map
          (fun x => max 0 (get2 m.r x k))).sum
      else
        min 0 (get2 m.r k k +
          (((List.range m.N).filter (fun x => x != i && x != k)).map
            (fun x => max 0 (get2 m.r x k))).sum))) }

/-- Modelled from the spec: the current exemplar assignment — per node, the
arg-max over candidates of combined responsibility plus availability
(§4.1 `checkConvergence`). -/
def TAPModel.assign (m : TAPModel) : List Nat :=
  (List.range m.N).map (fun i =>
    argmaxIdx ((List.range m.N).map (fun k => get2 m.r i k + get2 m.a i k)))

/-- Modelled from the spec: `checkConvergence(iterationIndex)` (§4.1) —
returns the number of nodes whose assignment changed and the continue flag
(true while something changed and the iteration cap is not reached; the
patience window, left open by §9, is taken as one check), and overwrites
`yold` with the new assignment. -/
def TAPModel.checkConvergence (m : TAPModel) (i : Nat) :
    (Nat × Bool) × TAPModel :=
  let y := m.assign
  let nc := (y.zip m.yold).countP (fun q => q.1 != q.2)
  ((nc, decide (0 < nc) && decide (i < m.maxIter)), { m with yold := y })

/-- Modelled from the spec: the influence graph of one topic (§4.1
`computeInfluenceGraphs`) — each node contributes its derived edge toward its
current exemplar when the topic-weighted influence score is positive; the
node set is always the full `nodeOrder`. -/
def TAPModel.muGraph (m : TAPModel) (z : Nat) : DiGraph :=
  { nodes := m.nodeOrder
    edges := (List.range m.N).filterMap (fun i =>
      let j := argmaxIdx ((List.range m.N).map (fun k => get2 m.r i k + get2 m.a i k))
      let wt := getQ (m.thetaMat.getD i []) z * (get2 m.r i j + get2 m.a i j)
      if 0 < wt then some (m.nodeOrder.getD i 0, m.nodeOrder.getD j 0, wt)
      else Option.none) }

/-- Modelled from the spec: the full influence-graph table, one graph per
topic index `0 .. T-1` (§4.1). -/
def TAPModel.muAll (m : TAPModel) : List (Nat × DiGraph) :=
  (List.range m.T).map (fun z => (z, m.muGraph z))

/-- Modelled from the spec: `computeInfluenceGraphs()` (§4.1, test name
`_calculate_mu`) populates `MU` with exactly `T` graphs. -/
def TAPModel.computeInfluenceGraphs (m : TAPModel) : TAPModel :=
  { m with MU := some m.muAll }

/-- The `(topicIndex, weight)` pairs read off the influence-graph table for
the directed pair `(i, j)`: topics whose graph has no edge from `i` to `j`
contribute no entry. -/
def itemPairs (gs : List (Nat × DiGraph)) (i j : Nat) : List (Nat × ℚ) :=
  gs.filterMap (fun zg =>
    (zg.2.edges.find? (fun e => e.1 == i && e.2.1 == j)).map
      (fun e => (zg.1, e.2.2)))

/-- Modelled from the spec: `describeRelationship(i, j)` (§4.1, test name
`_item_relationship`) — fails with `NotReady` while `MU` is absent, and
otherwise reads the per-topic influence weights off `MU`. -/
def TAPModel.describeRelationship (m : TAPModel) (i j : Nat) :
    Except TAPErr (List (Nat × ℚ)) :=
  match m.MU with
  | Option.none => .error TAPErr.notReady
  | some gs => .ok (itemPairs gs i j)

/-- Modelled from the spec: one round of the `run()` loop (§4.1) —
`updateResponsibility`, `updateAvailability`, `checkConvergence` at the
current iteration index, then increment `iteration`; the second component is
the continue flag. -/
def TAPModel.buildStep (m : TAPModel) : TAPModel × Bool :=
  let m1 := m.updateResponsibility.updateAvailability
  let res := m1.checkConvergence m1.iteration
  ({ res.2 with iteration := res.2.iteration + 1 }, res.1.2)

/-- Modelled from the spec: the `run()` loop, driven by an explicit fuel —
repeat `buildStep` while the continue flag holds.  The flag is false from
the iteration cap on, so fuel `maxIter + 1` is never exhausted
(`claim_C2_run_terminates`). -/
def TAPModel.buildLoop : TAPModel → Nat → TAPModel
  | m, 0 => m
  | m, fuel + 1 =>
    let st := m.buildStep
    if st.2 then st.1.buildLoop fuel else st.1

/-- Modelled from the spec: `run()` (§4.1, test name `build`) — iterate to
convergence or the cap, then compute the influence graphs once. -/
def TAPModel.run (m : TAPModel) : TAPModel :=
  (m.buildLoop (m.maxIter + 1)).computeInfluenceGraphs

/-! ## The orchestrator's per-slice aggregation (spec
`aggregateTopicWeights`, test name `TAPModelManager.author_theta`) -/

/-- Modelled from the spec: a document as the aggregation sees it — its
attributed node names and its fixed-width topic-mixture vector from the
external topic model (§4.2, §6). -/
structure TDoc where
  auths : List String
  theta : List ℚ

/-- The distinct attributed node names appearing in a slice's documents. -/
def appearNames (docs : List TDoc) : List String :=
  (docs.map TDoc.auths).flatten.dedup

/-- Elementwise sum of a list of equal-width vectors. -/
def sumVecs : List (List ℚ) → List ℚ
  | [] => []
  | [v] => v
  | v :: w :: t => List.zipWith (· + ·) v (sumVecs (w :: t))

/-- Elementwise average of a list of equal-width vectors. -/
def avgVecs (vs : List (List ℚ)) : List ℚ :=
  (sumVecs vs).map (fun x => x / (vs.length : ℚ))

/-- Modelled from the spec: `aggregateTopicWeights(documents,
nodeIndexByName)` (§4.2) — one entry per distinct attributed node appearing
in the documents, keyed by the node's index, holding the average of the
topic-mixture vectors of the documents attributed to it. -/
def author_theta (docs : List TDoc) (nidx : List (String × Nat)) :
    List (Nat × List ℚ) :=
  (appearNames docs).filterMap (fun nm =>
    (List.lookup nm nidx).map (fun ix =>
      (ix, avgVecs ((docs.filter (fun d => d.auths.contains nm)).map TDoc.theta))))

/-! ## Concrete instances used by witnesses and counterexamples -/

/-- A two-node graph with one positive-weight edge. -/
def exG : InGraph :=
  ⟨[0, 1], [(0, 1, 1)]⟩

/-- A two-node graph with no edges. -/
def noEdgeG : InGraph :=
  ⟨[0, 1], []⟩

/-- Width-1 topic vectors: node 0 active, node 1 inactive. -/
def exTheta : List (Nat × List ℚ) :=
  [(0, [1]), (1, [0])]

/-- Width-1 topic vectors, all zero. -/
def zTheta : List (Nat × List ℚ) :=
  [(0, [0]), (1, [0])]

/-- Width-1 topic vectors, all one. -/
def onesTheta : List (Nat × List ℚ) :=
  [(0, [1]), (1, [1])]

/-- A throwaway model used only as the default of `Option.getD`. -/
def dummyTAP : TAPModel :=
  ⟨0, 0, [], [], [], [], [], [], [], [], 0, 0, Option.none⟩

/-- The model constructed from `exG` and `exTheta` with iteration cap 1. -/
def exM : TAPModel :=
  (TAPModel.init exG exTheta 1).toOption.getD dummyTAP

/-- The model constructed from `exG` and `onesTheta` with iteration cap 3. -/
def exM5 : TAPModel :=
  (TAPModel.init exG onesTheta 3).toOption.getD dummyTAP

/-- A fresh `Paper` whose `aulast` was set to a one-element list while
`auinit` is still `None`. -/
def badPaper : Paper :=
  (Paper.mkInit.setitem "aulast" (PyVal.vlist [PyVal.vstr "Smith"])).1

/-- A fresh `Paper` with one-element `aulast` and `auinit` lists. -/
def okPaper : Paper :=
  ((Paper.mkInit.setitem "aulast" (PyVal.vlist [PyVal.vstr "smith"])).1.setitem
    "auinit" (PyVal.vlist [PyVal.vstr "j"])).1

/-- Two documents over nodes "A" and "B" with width-2 topic mixtures. -/
def exDocs : List TDoc :=
  [⟨["A"], [1, 0]⟩, ⟨["B", "A"], [0, 1]⟩]

/-- The node-name-to-index mapping for `exDocs`. -/
def exNidx : List (String × Nat) :=
  [("A", 0), ("B", 1)]

/-! ## Supporting lemmas -/

/-- Inverting a successful construction: the model is the canonical initial
state. -/
theorem TAPModel.init_ok {G : InGraph} {theta : List (Nat × List ℚ)}
    {cap : Nat} {m : TAPModel} (h : TAPModel.init G theta cap = .ok m) :
    m = mkTAP G theta cap := by
  unfold TAPModel.init at h
  by_cases h1 : widthsOK theta
  · by_cases h2 : coverOK G theta
    · simp [h1, h2] at h
      exact h.symm
    · simp [h1, h2] at h
  · simp [h1] at h

theorem checkConvergence_count_le (m : TAPModel) (i : Nat) :
    ((m.checkConvergence i).1.1 ≤ m.N) := by
  unfold TAPModel.checkConvergence
  calc (m.assign.zip m.yold).countP (fun q => q.1 != q.2)
      ≤ (m.assign.zip m.yold).length := List.countP_le_length _
    _ ≤ m.assign.length := by
        rw [List.length_zip]
        exact min_le_left _ _
    _ = m.N := by
        unfold TAPModel.assign
        simp

/-! ## Claim C1 -/

/-- Claim C1: after message updates, `computeInfluenceGraphs` populates the
influence-graph table with exactly `T` directed graphs keyed `0 .. T-1`,
each over the full node-identifier set; a topic with no qualifying
relationships still gets a (then edgeless) graph over the full node set,
never an absent entry. -/
theorem claim_C1_influence_graph_table (m : TAPModel) :
    ∃ gs, (m.computeInfluenceGraphs).MU = some gs ∧
      gs.map Prod.fst = List.range m.T ∧
      gs.length = m.T ∧
      ∀ zg ∈ gs, zg.2.nodes = m.nodeOrder := by
  refine ⟨m.muAll, rfl, ?_, ?_, ?_⟩
  · unfold TAPModel.muAll
    simp [Function.comp_def]
  · unfold TAPModel.muAll
    simp
  · intro zg hm
    unfold TAPModel.muAll at hm
    rcases List.mem_map.mp hm with ⟨z, _, rfl⟩
    rfl

/-! ## Claim C3 -/

/-- Claim C3: `checkConvergence(i)` returns a changed-count in `[0, N]`
together with a boolean that is true exactly while something changed and the
iteration cap is not reached (so it is false once the assignment is stable
for the one-check patience window or the cap is reached), and it overwrites
`yold` with the new assignment. -/
theorem claim_C3_check_convergence (m : TAPModel) (i : Nat) :
    (m.checkConvergence i).1.1 ≤ m.N ∧
      ((m.checkConvergence i).1.2 = true ↔
        0 < (m.checkConvergence i).1.1 ∧ i < m.maxIter) ∧
      (m.checkConvergence i).2.yold = m.assign := by
  refine ⟨checkConvergence_count_le m i, ?_, rfl⟩
  unfold TAPModel.checkConvergence
  simp

theorem buildStep_maxIter (m : TAPModel) : (m.buildStep).1.maxIter = m.maxIter :=
  rfl

theorem buildStep_iteration (m : TAPModel) :
    (m.buildStep).1.iteration = m.iteration + 1 :=
  rfl

theorem buildStep_T (m : TAPModel) : (m.buildStep).1.T = m.T :=
  rfl

theorem updates_maxIter (m : TAPModel) :
    m.updateResponsibility.updateAvailability.maxIter = m.maxIter :=
  rfl

theorem updates_iteration (m : TAPModel) :
    m.updateResponsibility.updateAvailability.iteration = m.iteration :=
  rfl

/-- The continue flag is false from the iteration cap on. -/
theorem buildStep_cont_false {m : TAPModel} (h : m.maxIter ≤ m.iteration) :
    (m.buildStep).2 = false := by
  unfold TAPModel.buildStep TAPModel.checkConvergence
  simp only [updates_maxIter, updates_iteration]
  simp
  intro
  omega

theorem buildLoop_T (m : TAPModel) (fuel : Nat) :
    (m.buildLoop fuel).T = m.T := by
  induction fuel generalizing m with
  | zero => rfl
  | succ f ih =>
    show (if (m.buildStep).2 then (m.buildStep).1.buildLoop f else (m.buildStep).1).T = m.T
    by_cases hc : (m.buildStep).2 = true
    · rw [if_pos hc, ih, buildStep_T]
    · rw [if_neg hc, buildStep_T]

/-- Once the fuel covers the remaining distance to the iteration cap, adding
fuel does not change the result of the update loop: the loop exits through
its continue flag, not through fuel exhaustion. -/
theorem buildLoop_stable (fuel : Nat) :
    ∀ (m : TAPModel) (extra : Nat), m.maxIter + 1 ≤ m.iteration + fuel →
      1 ≤ fuel → m.buildLoop (fuel + extra) = m.buildLoop fuel := by
  induction fuel with
  | zero => intro m extra _ h2; omega
  | succ f ih =>
    intro m extra h1 _
    have hstep : f + 1 + extra = (f + extra) + 1 := by omega
    rw [hstep]
    show (if (m.buildStep).2 then (m.buildStep).1.buildLoop (f + extra)
        else (m.buildStep).1) =
      (if (m.buildStep).2 then (m.buildStep).1.buildLoop f else (m.buildStep).1)
    rcases Nat.eq_zero_or_pos f with hf0 | hfpos
    · subst hf0
      have hcf : (m.buildStep).2 = false := buildStep_cont_false (by omega)
      rw [hcf]
      simp
    · by_cases hc : (m.buildStep).2 = true
      · rw [if_pos hc, if_pos hc]
        exact ih (m.buildStep).1 extra
          (by rw [buildStep_maxIter, buildStep_iteration]; omega) hfpos
      · rw [if_neg hc, if_neg hc]

/-! ## Claim C2 -/

/-- Claim C2: for every constructed model, `run()` terminates — the loop
needs no more than `maxIter + 1` rounds (extra fuel is never consumed, i.e.
the loop exits through the continue flag or the cap, not an error), a round
whose continue flag is false ends the loop immediately, and the
influence-graph table is populated (with `T` graphs) in every case,
convergence or not. -/
theorem claim_C2_run_terminates (G : InGraph) (theta : List (Nat × List ℚ))
    (cap : Nat) (m : TAPModel) (h : TAPModel.init G theta cap = .ok m) :
    (∀ extra, m.buildLoop (m.maxIter + 1 + extra) = m.buildLoop (m.maxIter + 1)) ∧
      (∀ m' : TAPModel, (m'.buildStep).2 = false →
        ∀ fuel, m'.buildLoop (fuel + 1) = (m'.buildStep).1) ∧
      ∃ gs, (m.run).MU = some gs ∧ gs.length = m.T := by
  have hiter : m.iteration = 0 := by
    rw [TAPModel.init_ok h]
    rfl
  refine ⟨?_, ?_, ?_⟩
  · intro extra
    exact buildLoop_stable (m.maxIter + 1) m extra (by omega) (by omega)
  · intro m' hc fuel
    show (if (m'.buildStep).2 then (m'.buildStep).1.buildLoop fuel
        else (m'.buildStep).1) = (m'.buildStep).1
    rw [hc]
    simp
  · refine ⟨(m.buildLoop (m.maxIter + 1)).muAll, rfl, ?_⟩
    unfold TAPModel.muAll
    rw [List.length_map, List.length_range, buildLoop_T]

theorem mkTAP_MU (G : InGraph) (theta : List (Nat × List ℚ)) (cap : Nat) :
    (mkTAP G theta cap).MU = Option.none :=
  rfl

theorem mkTAP_N (G : InGraph) (theta : List (Nat × List ℚ)) (cap : Nat) :
    (mkTAP G theta cap).N = G.nodes.length :=
  rfl

/-! ## Claim C6 -/

/-- Claim C6: constructing a model from a graph with `N` nodes and a
node-topic mapping whose vectors all have width `T` (and which covers the
graph's nodes, so that construction succeeds) yields an instance with
`.N = N`, `.T = T` and `yold` of length `N`. -/
theorem claim_C6_construction (G : InGraph) (theta : List (Nat × List ℚ))
    (T cap : Nat) (hne : theta ≠ [])
    (hw : ∀ kv ∈ theta, kv.2.length = T)
    (hcov : coverOK G theta = true) :
    ∃ m, TAPModel.init G theta cap = .ok m ∧
      m.N = G.nodes.length ∧ m.T = T ∧ m.yold.length = G.nodes.length := by
  have hhead : (theta.map (fun kv => kv.2.length)).headD 0 = T := by
    cases theta with
    | nil => exact absurd rfl hne
    | cons kv t => simpa using hw kv (List.mem_cons_self kv t)
  have hwok : widthsOK theta = true := by
    unfold widthsOK
    rw [List.all_eq_true]
    intro w hwmem
    rcases List.mem_map.mp hwmem with ⟨kv, hkv, rfl⟩
    rw [hhead, hw kv hkv]
    exact beq_self_eq_true T
  refine ⟨mkTAP G theta cap, ?_, rfl, ?_, ?_⟩
  · unfold TAPModel.init
    rw [hwok, hcov]
    simp
  · show (theta.map (fun kv => kv.2.length)).headD 0 = T
    exact hhead
  · show (List.replicate G.nodes.length 0).length = G.nodes.length
    exact List.length_replicate _ _

/-! ## Claim C4 -/

/-- Claim C4: `describeRelationship(i, j)` fails with `NotReady` on a freshly
constructed model (before `computeInfluenceGraphs` has run), and after
`run()` it returns the `(topicIndex, weight)` pairs, each backed by an edge
from `i` to `j` of the influence graph of that topic. -/
theorem claim_C4_describe_relationship (G : InGraph)
    (theta : List (Nat × List ℚ)) (cap : Nat) (m : TAPModel) (i j : Nat)
    (h : TAPModel.init G theta cap = .ok m) :
    m.describeRelationship i j = .error TAPErr.notReady ∧
      ∀ gs, (m.run).MU = some gs →
        (m.run).describeRelationship i j = .ok (itemPairs gs i j) ∧
        ∀ zw ∈ itemPairs gs i j, ∃ zg ∈ gs,
          zg.1 = zw.1 ∧ (i, j, zw.2) ∈ zg.2.edges := by
  constructor
  · rw [TAPModel.init_ok h]
    rfl
  · intro gs hgs
    constructor
    · unfold TAPModel.describeRelationship
      rw [hgs]
    · intro zw hzw
      rcases List.mem_filterMap.mp hzw with ⟨zg, hzg, hf⟩
      rcases Option.map_eq_some'.mp hf with ⟨e, hfind, hzw2⟩
      refine ⟨zg, hzg, ?_, ?_⟩
      · rw [← hzw2]
      · have he : e ∈ zg.2.edges := List.mem_of_find?_eq_some hfind
        have hp := List.find?_some hfind
        rw [Bool.and_eq_true, beq_iff_eq, beq_iff_eq] at hp
        have : (i, j, zw.2) = e := by
          rw [← hzw2]
          exact Prod.ext hp.1.symm (Prod.ext hp.2.symm rfl)
        rw [this]
        exact he

theorem dotQ_nil_left (y : List ℚ) : dotQ [] y = 0 := by
  cases y <;> rfl

theorem dotQ_nil_right (x : List ℚ) : dotQ x [] = 0 := by
  cases x <;> rfl

theorem dotQ_cons (a b : ℚ) (xs ys : List ℚ) :
    dotQ (a :: xs) (b :: ys) = a * b + dotQ xs ys :=
  rfl

theorem dotQ_self_nonneg (v : List ℚ) : 0 ≤ dotQ v v := by
  induction v with
  | nil => rw [dotQ_nil_left]
  | cons a t ih =>
    rw [dotQ_cons]
    exact add_nonneg (mul_self_nonneg a) ih

theorem dotQ_nonneg (v : List ℚ) (hv : ∀ x ∈ v, 0 ≤ x) :
    ∀ w, (∀ x ∈ w, 0 ≤ x) → 0 ≤ dotQ v w := by
  induction v with
  | nil =>
    intro w _
    rw [dotQ_nil_left]
  | cons a t ih =>
    intro w hw
    cases w with
    | nil => rw [dotQ_nil_right]
    | cons b u =>
      rw [dotQ_cons]
      refine add_nonneg (mul_nonneg (hv a ?_) (hw b ?_)) ?_
      · exact List.mem_cons_self a t
      · exact List.mem_cons_self b u
      · exact ih (fun x hx => hv x (List.mem_cons_of_mem a hx)) u
          (fun x hx => hw x (List.mem_cons_of_mem b hx))

/-- A vector with a nonzero inner product against anything has positive
self-affinity. -/
theorem dotQ_self_pos (v : List ℚ) :
    ∀ w, dotQ v w ≠ 0 → 0 < dotQ v v := by
  induction v with
  | nil =>
    intro w h
    exact absurd (dotQ_nil_left w) h
  | cons a t ih =>
    intro w h
    cases w with
    | nil => exact absurd (dotQ_nil_right _) h
    | cons b u =>
      rw [dotQ_cons] at h
      rw [dotQ_cons]
      by_cases hab : a * b = 0
      · have hd : dotQ t u ≠ 0 := by
          intro h0
          rw [hab, h0, add_zero] at h
          exact h rfl
        exact add_pos_of_nonneg_of_pos (mul_self_nonneg a) (ih u hd)
      · exact add_pos_of_pos_of_nonneg
          (mul_self_pos.mpr (left_ne_zero_of_mul hab)) (dotQ_self_nonneg t)

theorem sum_pos_of_mem {l : List ℚ} {a : ℚ} (ha : a ∈ l) (hpos : 0 < a)
    (hnn : ∀ x ∈ l, 0 ≤ x) : 0 < l.sum :=
  lt_of_lt_of_le hpos (List.single_le_sum hnn a ha)

theorem wOf_nonneg (es : List (Nat × Nat × ℚ)) (u v : Nat)
    (h : ∀ e ∈ es, 0 ≤ e.2.2) : 0 ≤ wOf es u v := by
  unfold wOf
  apply List.sum_nonneg
  intro x hx
  rcases List.mem_map.mp hx with ⟨e, he, rfl⟩
  split
  · exact h e he
  · exact le_refl 0

theorem le_wOf {es : List (Nat × Nat × ℚ)} {u v : Nat} {w : ℚ}
    (hmem : (u, v, w) ∈ es) (hnn : ∀ e ∈ es, 0 ≤ e.2.2) : w ≤ wOf es u v := by
  unfold wOf
  apply List.single_le_sum
  · intro x hx
    rcases List.mem_map.mp hx with ⟨e, he, rfl⟩
    split
    · exact hnn e he
    · exact le_refl 0
  · refine List.mem_map.mpr ⟨(u, v, w), hmem, ?_⟩
    exact if_pos (Or.inl ⟨rfl, rfl⟩)

theorem lookup_mem {β} (n : Nat) (l : List (Nat × β)) (v : β)
    (h : List.lookup n l = some v) : ∃ k, (k, v) ∈ l := by
  induction l with
  | nil => exact absurd h (by simp)
  | cons kv t ih =>
    rw [List.lookup_cons] at h
    cases hk : (n == kv.1) with
    | true =>
      rw [hk] at h
      have hv2 : kv.2 = v := Option.some_inj.mp h
      subst hv2
      exact ⟨kv.1, List.mem_cons_self kv t⟩
    | false =>
      rw [hk] at h
      rcases ih h with ⟨k, hks⟩
      exact ⟨k, List.mem_cons_of_mem kv hks⟩

theorem thetaOf_nonneg (theta : List (Nat × List ℚ)) (n : Nat)
    (h : ∀ kv ∈ theta, ∀ x ∈ kv.2, 0 ≤ x) : ∀ x ∈ thetaOf theta n, 0 ≤ x := by
  unfold thetaOf
  cases hl : List.lookup n theta with
  | none => simp
  | some v =>
    intro x hx
    rcases lookup_mem n theta v hl with ⟨k, hkv⟩
    exact h (k, v) hkv x hx

theorem mkTAP_g (G : InGraph) (theta : List (Nat × List ℚ)) (cap : Nat) :
    (mkTAP G theta cap).g = G.nodes.map (fun u =>
      ((G.nodes.filter (fun v => v != u)).map
        (fun v => wOf G.edges u v * dotQ (thetaOf theta u) (thetaOf theta v))).sum) :=
  rfl

theorem mkTAP_b (G : InGraph) (theta : List (Nat × List ℚ)) (cap : Nat) :
    (mkTAP G theta cap).b = G.nodes.map (fun u =>
      dotQ (thetaOf theta u) (thetaOf theta u)) :=
  rfl

/-! ## Claim C5 -/

/-- Claim C5, amended: the score vectors have length `N`, and for a graph
carrying at least one positive-weight edge whose endpoints' topic vectors
have positive similarity (dot product) — with all weights and topic entries
nonnegative, as the data model requires — both score vectors have positive
total mass. -/
theorem claim_C5_amended (G : InGraph) (theta : List (Nat × List ℚ))
    (cap : Nat) (m : TAPModel) (u v : Nat) (w : ℚ)
    (h : TAPModel.init G theta cap = .ok m)
    (hwts : ∀ e ∈ G.edges, 0 ≤ e.2.2)
    (hth : ∀ kv ∈ theta, ∀ x ∈ kv.2, 0 ≤ x)
    (hmem : (u, v, w) ∈ G.edges)
    (hu : u ∈ G.nodes) (hv : v ∈ G.nodes) (huv : u ≠ v)
    (hwpos : 0 < w)
    (hdot : 0 < dotQ (thetaOf theta u) (thetaOf theta v)) :
    m.g.length = G.nodes.length ∧ m.b.length = G.nodes.length ∧
      0 < m.g.sum ∧ 0 < m.b.sum := by
  obtain rfl : m = mkTAP G theta cap := TAPModel.init_ok h
  rw [mkTAP_g, mkTAP_b]
  have htermnn : ∀ n : Nat, ∀ x ∈ (G.nodes.filter (fun y => y != n)).map
      (fun y => wOf G.edges n y * dotQ (thetaOf theta n) (thetaOf theta y)),
      0 ≤ x := by
    intro n x hx
    rcases List.mem_map.mp hx with ⟨y, _, rfl⟩
    exact mul_nonneg (wOf_nonneg G.edges n y hwts)
      (dotQ_nonneg (thetaOf theta n) (thetaOf_nonneg theta n hth)
        (thetaOf theta y) (thetaOf_nonneg theta y hth))
  refine ⟨List.length_map _ _, List.length_map _ _, ?_, ?_⟩
  · have hvmem : v ∈ G.nodes.filter (fun y => y != u) :=
      List.mem_filter.mpr ⟨hv, bne_iff_ne.mpr (Ne.symm huv)⟩
    have htermpos : 0 < wOf G.edges u v * dotQ (thetaOf theta u) (thetaOf theta v) :=
      mul_pos (lt_of_lt_of_le hwpos (le_wOf hmem hwts)) hdot
    have hgu : 0 < ((G.nodes.filter (fun y => y != u)).map
        (fun y => wOf G.edges u y * dotQ (thetaOf theta u) (thetaOf theta y))).sum :=
      sum_pos_of_mem (List.mem_map.mpr ⟨v, hvmem, rfl⟩) htermpos (htermnn u)
    refine sum_pos_of_mem (List.mem_map.mpr ⟨u, hu, rfl⟩) hgu ?_
    intro x hx
    rcases List.mem_map.mp hx with ⟨n, _, rfl⟩
    exact List.sum_nonneg (htermnn n)
  · refine sum_pos_of_mem (List.mem_map.mpr ⟨u, hu, rfl⟩)
      (dotQ_self_pos (thetaOf theta u) (thetaOf theta v) (ne_of_gt hdot)) ?_
    intro x hx
    rcases List.mem_map.mp hx with ⟨n, _, rfl⟩
    exact dotQ_self_nonneg (thetaOf theta n)

theorem getD_map_range {α} (d : α) (g : Nat → α) {i n : Nat} (h : i < n) :
    ((List.range n).map g).getD i d = g i := by
  rw [List.getD_eq_getElem?_getD, List.getElem?_map, List.getElem?_range h]
  rfl

theorem replicate_getD {α} (n i : Nat) (a d : α) :
    (List.replicate n a).getD i d = if i < n then a else d := by
  rw [List.getD_eq_getElem?_getD, List.getElem?_replicate]
  split <;> rfl

theorem zeros_get2 (n i k : Nat) : get2 (zeros n) i k = 0 := by
  unfold zeros get2
  rw [replicate_getD]
  split
  · rw [replicate_getD]
    split <;> rfl
  · rfl

theorem le_maxList : ∀ {l : List ℚ} {a : ℚ}, a ∈ l → a ≤ maxList l := by
  intro l
  induction l with
  | nil =>
    intro a h
    cases h
  | cons x t ih =>
    intro a h
    cases t with
    | nil =>
      rcases List.mem_singleton.mp h with rfl
      exact le_refl _
    | cons y u =>
      rcases List.mem_cons.mp h with rfl | hmem
      · exact le_max_left _ _
      · exact le_trans (ih hmem) (le_max_right _ _)

/-- The responsibility entry recomputed by one update, in closed form. -/
theorem updateResponsibility_get2 (m : TAPModel) {i k : Nat}
    (hi : i < m.N) (hk : k < m.N) :
    get2 m.updateResponsibility.r i k =
      get2 m.s i k - maxList (((List.range m.N).filter (fun x => x != k)).map
        (fun x => get2 m.s i x + get2 m.a i x)) := by
  show get2 ((List.range m.N).map (fun i => (List.range m.N).map (fun k =>
      get2 m.s i k - maxList (((List.range m.N).filter (fun x => x != k)).map
        (fun x => get2 m.s i x + get2 m.a i x))))) i k = _
  unfold get2
  rw [getD_map_range [] _ hi, getD_map_range 0 _ hk]

/-! ## Claim C7 -/

/-- Claim C7, amended: on a freshly constructed model over a graph with at
least 2 nodes whose score matrix has a non-constant row — some node `i` sees
two candidate exemplars `k1`, `k2` with different scores — a single
`updateResponsibility()` call changes the responsibility state. -/
theorem claim_C7_amended (G : InGraph) (theta : List (Nat × List ℚ))
    (cap : Nat) (m : TAPModel) (i k1 k2 : Nat)
    (h : TAPModel.init G theta cap = .ok m)
    (hN : 2 ≤ m.N)
    (hik : i < m.N) (hk1 : k1 < m.N) (hk2 : k2 < m.N) (hne : k1 ≠ k2)
    (hlt : get2 m.s i k1 < get2 m.s i k2) :
    m.updateResponsibility.r ≠ m.r := by
  obtain rfl : m = mkTAP G theta cap := TAPModel.init_ok h
  intro heq
  have hr0 : get2 (mkTAP G theta cap).r i k1 = 0 := zeros_get2 _ i k1
  have ha0 : get2 (mkTAP G theta cap).a i k2 = 0 := zeros_get2 _ i k2
  have hval := updateResponsibility_get2 (mkTAP G theta cap) hik hk1
  have hmemv : (get2 (mkTAP G theta cap).s i k2 +
      get2 (mkTAP G theta cap).a i k2) ∈
      ((List.range (mkTAP G theta cap).N).filter (fun x => x != k1)).map
        (fun x => get2 (mkTAP G theta cap).s i x +
          get2 (mkTAP G theta cap).a i x) :=
    List.mem_map.mpr ⟨k2, List.mem_filter.mpr
      ⟨List.mem_range.mpr hk2, bne_iff_ne.mpr (Ne.symm hne)⟩, rfl⟩
  have hle := le_maxList hmemv
  have hz : get2 (mkTAP G theta cap).updateResponsibility.r i k1 = 0 := by
    rw [heq]
    exact hr0
  rw [hval] at hz
  rw [ha0, add_zero] at hle
  linarith

/-- Claim C5 counterexample: `exG` carries a positive-weight edge, yet with
all-zero topic vectors construction succeeds and both score vectors sum to
`0`, not a positive value. -/
theorem claim_C5_counterexample :
    exG.edges = [(0, 1, 1)] ∧
      (TAPModel.init exG zTheta 10).map (fun m => m.g.sum) = Except.ok 0 ∧
      (TAPModel.init exG zTheta 10).map (fun m => m.b.sum) = Except.ok 0 := by
  refine ⟨rfl, ?_, ?_⟩
  · have h : TAPModel.init exG zTheta 10 = .ok (mkTAP exG zTheta 10) := rfl
    rw [h]
    show Except.ok (mkTAP exG zTheta 10).g.sum = Except.ok 0
    rw [mkTAP_g]
    simp [wOf, thetaOf, dotQ_cons, dotQ_nil_left, List.lookup, exG]
  · have h : TAPModel.init exG zTheta 10 = .ok (mkTAP exG zTheta 10) := rfl
    rw [h]
    show Except.ok (mkTAP exG zTheta 10).b.sum = Except.ok 0
    rw [mkTAP_b]
    simp [thetaOf, dotQ_cons, dotQ_nil_left, List.lookup, exG]

/-- Claim C5 witness: on `exG` with all-one topic vectors the amended claim
applies and both score vectors have positive total mass. -/
theorem claim_C5_witness :
    exM5.g.length = exG.nodes.length ∧ exM5.b.length = exG.nodes.length ∧
      0 < exM5.g.sum ∧ 0 < exM5.b.sum :=
  claim_C5_amended exG onesTheta 3 exM5 0 1 1 rfl (by decide) (by decide)
    (List.mem_singleton.mpr rfl) (by decide) (by decide) (by decide) (by decide)
    (by simp [thetaOf, dotQ_cons, dotQ_nil_left, List.lookup, onesTheta])

/-- Claim C7 counterexample: on a two-node graph with no edges and all-zero
topic vectors, one `updateResponsibility()` call leaves `r` unchanged. -/
theorem claim_C7_counterexample :
    noEdgeG.nodes.length = 2 ∧
      (TAPModel.init noEdgeG zTheta 5).map (fun m => m.updateResponsibility.r) =
        (TAPModel.init noEdgeG zTheta 5).map (fun m => m.r) := by
  refine ⟨rfl, ?_⟩
  have h : TAPModel.init noEdgeG zTheta 5 = .ok (mkTAP noEdgeG zTheta 5) := rfl
  rw [h]
  show Except.ok (mkTAP noEdgeG zTheta 5).updateResponsibility.r =
    Except.ok (mkTAP noEdgeG zTheta 5).r
  congr 1
  simp [mkTAP, TAPModel.updateResponsibility, zeros, get2, wOf, thetaOf,
    dotQ_cons, dotQ_nil_left, maxList, List.lookup, noEdgeG,
    show List.range 2 = [0, 1] from rfl]

/-- Claim C7 witness: on `exM` node 0 sees different scores for its two
candidate exemplars, so one update changes `r`. -/
theorem claim_C7_witness : exM.updateResponsibility.r ≠ exM.r :=
  claim_C7_amended exG exTheta 1 exM 0 1 0 rfl (by decide) (by decide)
    (by decide) (by decide) (by decide)
    (by
      show get2 (mkTAP exG exTheta 1).s 0 1 < get2 (mkTAP exG exTheta 1).s 0 0
      simp [mkTAP, get2, wOf, thetaOf, dotQ_cons, dotQ_nil_left, List.lookup,
        exG, exTheta, show List.range 2 = [0, 1] from rfl])

/-- Claim C2 witness: the loop for `exM` (cap 1) consumes no extra fuel and
`run()` populates the table with `T` graphs. -/
theorem claim_C2_witness :
    (∀ extra, exM.buildLoop (exM.maxIter + 1 + extra) =
        exM.buildLoop (exM.maxIter + 1)) ∧
      (∀ m' : TAPModel, (m'.buildStep).2 = false →
        ∀ fuel, m'.buildLoop (fuel + 1) = (m'.buildStep).1) ∧
      ∃ gs, (exM.run).MU = some gs ∧ gs.length = exM.T :=
  claim_C2_run_terminates exG exTheta 1 exM rfl

/-- Claim C4 witness: on the freshly constructed `exM`, the relationship
query fails with `NotReady`, and after `run()` it answers from the table. -/
theorem claim_C4_witness :
    exM.describeRelationship 0 1 = .error TAPErr.notReady ∧
      ∀ gs, (exM.run).MU = some gs →
        (exM.run).describeRelationship 0 1 = .ok (itemPairs gs 0 1) ∧
        ∀ zw ∈ itemPairs gs 0 1, ∃ zg ∈ gs,
          zg.1 = zw.1 ∧ (0, 1, zw.2) ∈ zg.2.edges :=
  claim_C4_describe_relationship exG exTheta 1 exM 0 1 rfl

/-- Claim C6 witness: constructing from `exG` and `exTheta` yields `N = 2`,
`T = 1` and a length-2 `yold`. -/
theorem claim_C6_witness :
    ∃ m, TAPModel.init exG exTheta 5 = .ok m ∧
      m.N = exG.nodes.length ∧ m.T = 1 ∧ m.yold.length = exG.nodes.length :=
  claim_C6_construction exG exTheta 1 5 (List.cons_ne_nil _ _) (by decide)
    (by decide)

theorem filterMap_length_all_some {α β} (f : α → Option β) :
    ∀ (l : List α), (∀ x ∈ l, (f x).isSome) →
      (l.filterMap f).length = l.length := by
  intro l
  induction l with
  | nil => intro _; rfl
  | cons a t ih =>
    intro h
    rcases Option.isSome_iff_exists.mp (h a (List.mem_cons_self a t)) with ⟨b, hb⟩
    simp only [List.filterMap_cons, hb, List.length_cons]
    rw [ih (fun x hx => h x (List.mem_cons_of_mem a hx))]

theorem sumVecs_length {T : Nat} : ∀ (vs : List (List ℚ)), vs ≠ [] →
    (∀ v ∈ vs, v.length = T) → (sumVecs vs).length = T := by
  intro vs
  induction vs with
  | nil =>
    intro h
    exact absurd rfl h
  | cons v t ih =>
    intro _ hall
    cases t with
    | nil => exact hall v (List.mem_cons_self v [])
    | cons w u =>
      show (List.zipWith (· + ·) v (sumVecs (w :: u))).length = T
      rw [List.length_zipWith,
        ih (List.cons_ne_nil w u) (fun x hx => hall x (List.mem_cons_of_mem v hx)),
        hall v (List.mem_cons_self v (w :: u))]
      exact min_self T

theorem appearNames_exists {docs : List TDoc} {nm : String}
    (h : nm ∈ appearNames docs) : ∃ d ∈ docs, nm ∈ d.auths := by
  unfold appearNames at h
  rw [List.mem_dedup] at h
  rcases List.mem_flatten.mp h with ⟨l, hl, hnm⟩
  rcases List.mem_map.mp hl with ⟨d, hd, rfl⟩
  exact ⟨d, hd, hnm⟩

/-! ## Claim C8 -/

/-- Claim C8: over a slice's documents, the aggregation returns exactly one
entry per distinct attributed node appearing in them (provided the index
mapping covers those nodes), and every vector in the mapping has the
external topic model's width `T`. -/
theorem claim_C8_author_theta (docs : List TDoc) (nidx : List (String × Nat))
    (T : Nat) (hT : ∀ d ∈ docs, d.theta.length = T)
    (hcov : ∀ nm ∈ appearNames docs, (List.lookup nm nidx).isSome) :
    (author_theta docs nidx).length = (appearNames docs).length ∧
      ∀ q ∈ author_theta docs nidx, q.2.length = T := by
  constructor
  · unfold author_theta
    apply filterMap_length_all_some
    intro nm hnm
    rcases Option.isSome_iff_exists.mp (hcov nm hnm) with ⟨ix, hix⟩
    rw [hix]
    rfl
  · intro q hq
    unfold author_theta at hq
    rcases List.mem_filterMap.mp hq with ⟨nm, hnm, hf⟩
    rcases Option.map_eq_some'.mp hf with ⟨ix, _, rfl⟩
    show (avgVecs ((docs.filter (fun d => d.auths.contains nm)).map
      TDoc.theta)).length = T
    unfold avgVecs
    rw [List.length_map]
    rcases appearNames_exists hnm with ⟨d, hd, hnmd⟩
    have hdf : d ∈ docs.filter (fun d => d.auths.contains nm) :=
      List.mem_filter.mpr ⟨hd, List.elem_iff.mpr hnmd⟩
    apply sumVecs_length
    · exact List.ne_nil_of_mem (List.mem_map.mpr ⟨d, hdf, rfl⟩)
    · intro v hv
      rcases List.mem_map.mp hv with ⟨e, he, rfl⟩
      exact hT e (List.mem_filter.mp he).1

/-- Claim C8 witness: two documents over nodes "A" and "B" with width-2
mixtures give a mapping with 2 entries, all of width 2. -/
theorem claim_C8_witness :
    (author_theta exDocs exNidx).length = (appearNames exDocs).length ∧
      ∀ q ∈ author_theta exDocs exNidx, q.2.length = 2 :=
  claim_C8_author_theta exDocs exNidx 2 (by decide) (by decide)

theorem isN_false {v : PyVal} (h : v ≠ PyVal.vnone) : v.isN = false := by
  cases v <;> first | rfl | exact absurd rfl h

theorem contains_mem {l : List String} {k : String} :
    l.contains k = true ↔ k ∈ l := by
  show l.elem k = true ↔ k ∈ l
  exact List.elem_iff

theorem lf_sub : ∀ k ∈ list_fields, k ∈ paperVocab := by decide

theorem sf_sub : ∀ k ∈ string_fields, k ∈ paperVocab := by decide

theorem intf_sub : ∀ k ∈ int_fields, k ∈ paperVocab := by decide

theorem df_sub : ∀ k ∈ dict_fields, k ∈ paperVocab := by decide

theorem sf_not : ∀ k ∈ string_fields, k ∉ list_fields := by decide

theorem intf_not : ∀ k ∈ int_fields, k ∉ list_fields ∧ k ∉ string_fields := by
  decide

theorem df_not : ∀ k ∈ dict_fields,
    k ∉ list_fields ∧ k ∉ string_fields ∧ k ∉ int_fields := by decide

theorem not_contains {l : List String} {k : String} (h : k ∉ l) :
    l.contains k = false :=
  Bool.eq_false_iff.mpr (fun hq => h (contains_mem.mp hq))

/-! ## Claim C9 -/

/-- Claim C9: on a `Paper` (whose key set is the fixed vocabulary, as every
reachable `Paper` has), assignment raises `KeyError` outside the vocabulary;
raises `ValueError` on a list/string/int/dict field given a value that is
neither `None` nor of the required exact type; succeeds otherwise — in
particular `None` always succeeds on a vocabulary key — and whenever it
raises, the contents are unchanged. -/
theorem claim_C9_setitem (p : Paper) (k : String) (v : PyVal)
    (hk : keysOf p = paperVocab) :
    (k ∉ paperVocab → Paper.setitem p k v = (p, some PyErr.keyError)) ∧
    (k ∈ paperVocab → v = PyVal.vnone →
      (Paper.setitem p k v).2 = Option.none) ∧
    (k ∈ list_fields → v.isL = false → v ≠ PyVal.vnone →
      Paper.setitem p k v = (p, some PyErr.valueError)) ∧
    (k ∈ string_fields → v.isS = false → v.isU = false → v ≠ PyVal.vnone →
      Paper.setitem p k v = (p, some PyErr.valueError)) ∧
    (k ∈ int_fields → v.isI = false → v ≠ PyVal.vnone →
      Paper.setitem p k v = (p, some PyErr.valueError)) ∧
    (k ∈ dict_fields → v.isD = false → v ≠ PyVal.vnone →
      Paper.setitem p k v = (p, some PyErr.valueError)) ∧
    (k ∈ paperVocab →
      (k ∈ list_fields → v.isL = true ∨ v = PyVal.vnone) →
      (k ∈ string_fields → v.isS = true ∨ v.isU = true ∨ v = PyVal.vnone) →
      (k ∈ int_fields → v.isI = true ∨ v = PyVal.vnone) →
      (k ∈ dict_fields → v.isD = true ∨ v = PyVal.vnone) →
      Paper.setitem p k v = (setAssoc p k v, Option.none)) ∧
    (∀ e, (Paper.setitem p k v).2 = some e → (Paper.setitem p k v).1 = p) := by
  refine ⟨?_, ?_, ?_, ?_, ?_, ?_, ?_, ?_⟩
  · intro hnk
    unfold Paper.setitem
    rw [hk, if_pos (fun hq => hnk (contains_mem.mp hq))]
  · intro hkv hveq
    subst hveq
    unfold Paper.setitem
    rw [hk, if_neg (fun hcon => hcon (contains_mem.mpr hkv))]
    rw [if_neg (by simp [PyVal.isN]), if_neg (by simp [PyVal.isN]),
      if_neg (by simp [PyVal.isN]), if_neg (by simp [PyVal.isN])]
  · intro hkl hisL hvn
    unfold Paper.setitem
    rw [hk, if_neg (fun hcon => hcon (contains_mem.mpr (lf_sub k hkl)))]
    rw [if_pos (show (list_fields.contains k && !v.isL && !v.isN) = true by
      rw [contains_mem.mpr hkl, hisL, isN_false hvn]
      rfl)]
  · intro hks hisS hisU hvn
    unfold Paper.setitem
    rw [hk, if_neg (fun hcon => hcon (contains_mem.mpr (sf_sub k hks)))]
    rw [if_neg (by rw [not_contains (sf_not k hks)]; simp)]
    rw [if_pos (show (string_fields.contains k && !v.isS && !v.isU && !v.isN)
        = true by
      rw [contains_mem.mpr hks, hisS, hisU, isN_false hvn]
      rfl)]
  · intro hki hisI hvn
    unfold Paper.setitem
    rw [hk, if_neg (fun hcon => hcon (contains_mem.mpr (intf_sub k hki)))]
    rw [if_neg (by rw [not_contains (intf_not k hki).1]; simp)]
    rw [if_neg (by rw [not_contains (intf_not k hki).2]; simp)]
    rw [if_pos (show (int_fields.contains k && !v.isI && !v.isN) = true by
      rw [contains_mem.mpr hki, hisI, isN_false hvn]
      rfl)]
  · intro hkd hisD hvn
    unfold Paper.setitem
    rw [hk, if_neg (fun hcon => hcon (contains_mem.mpr (df_sub k hkd)))]
    rw [if_neg (by rw [not_contains (df_not k hkd).1]; simp)]
    rw [if_neg (by rw [not_contains (df_not k hkd).2.1]; simp)]
    rw [if_neg (by rw [not_contains (df_not k hkd).2.2]; simp)]
    rw [if_pos (show (dict_fields.contains k && !v.isD && !v.isN) = true by
      rw [contains_mem.mpr hkd, hisD, isN_false hvn]
      rfl)]
  · intro hkv hgl hgs hgi hgd
    have hc2 : (list_fields.contains k && !v.isL && !v.isN) = false := by
      by_cases hkl : k ∈ list_fields
      · rcases hgl hkl with hL | hveq
        · rw [hL]
          simp
        · subst hveq
          simp [PyVal.isN]
      · rw [not_contains hkl]
        simp
    have hc3 : (string_fields.contains k && !v.isS && !v.isU && !v.isN)
        = false := by
      by_cases hks : k ∈ string_fields
      · rcases hgs hks with hS | hS | hveq
        · rw [hS]
          simp
        · rw [hS]
          simp
        · subst hveq
          simp [PyVal.isN]
      · rw [not_contains hks]
        simp
    have hc4 : (int_fields.contains k && !v.isI && !v.isN) = false := by
      by_cases hki : k ∈ int_fields
      · rcases hgi hki with hI | hveq
        · rw [hI]
          simp
        · subst hveq
          simp [PyVal.isN]
      · rw [not_contains hki]
        simp
    have hc5 : (dict_fields.contains k && !v.isD && !v.isN) = false := by
      by_cases hkd : k ∈ dict_fields
      · rcases hgd hkd with hD | hveq
        · rw [hD]
          simp
        · subst hveq
          simp [PyVal.isN]
      · rw [not_contains hkd]
        simp
    unfold Paper.setitem
    rw [hk, if_neg (fun hcon => hcon (contains_mem.mpr hkv))]
    rw [if_neg (by rw [hc2]; simp), if_neg (by rw [hc3]; simp),
      if_neg (by rw [hc4]; simp), if_neg (by rw [hc5]; simp)]
  · intro e he
    unfold Paper.setitem at he ⊢
    split_ifs at he ⊢ <;> first | rfl | exact absurd he (by simp)

/-- Claim C9 witness: the characterization applied to a fresh `Paper`, the
`"date"` key and an integer value. -/
theorem claim_C9_witness :
    ("date" ∉ paperVocab → Paper.setitem Paper.mkInit "date" (PyVal.vint 1999)
        = (Paper.mkInit, some PyErr.keyError)) ∧
    ("date" ∈ paperVocab → PyVal.vint 1999 = PyVal.vnone →
      (Paper.setitem Paper.mkInit "date" (PyVal.vint 1999)).2 = Option.none) ∧
    ("date" ∈ list_fields → (PyVal.vint 1999).isL = false →
      PyVal.vint 1999 ≠ PyVal.vnone →
      Paper.setitem Paper.mkInit "date" (PyVal.vint 1999)
        = (Paper.mkInit, some PyErr.valueError)) ∧
    ("date" ∈ string_fields → (PyVal.vint 1999).isS = false →
      (PyVal.vint 1999).isU = false → PyVal.vint 1999 ≠ PyVal.vnone →
      Paper.setitem Paper.mkInit "date" (PyVal.vint 1999)
        = (Paper.mkInit, some PyErr.valueError)) ∧
    ("date" ∈ int_fields → (PyVal.vint 1999).isI = false →
      PyVal.vint 1999 ≠ PyVal.vnone →
      Paper.setitem Paper.mkInit "date" (PyVal.vint 1999)
        = (Paper.mkInit, some PyErr.valueError)) ∧
    ("date" ∈ dict_fields → (PyVal.vint 1999).isD = false →
      PyVal.vint 1999 ≠ PyVal.vnone →
      Paper.setitem Paper.mkInit "date" (PyVal.vint 1999)
        = (Paper.mkInit, some PyErr.valueError)) ∧
    ("date" ∈ paperVocab →
      ("date" ∈ list_fields →
        (PyVal.vint 1999).isL = true ∨ PyVal.vint 1999 = PyVal.vnone) →
      ("date" ∈ string_fields → (PyVal.vint 1999).isS = true ∨
        (PyVal.vint 1999).isU = true ∨ PyVal.vint 1999 = PyVal.vnone) →
      ("date" ∈ int_fields →
        (PyVal.vint 1999).isI = true ∨ PyVal.vint 1999 = PyVal.vnone) →
      ("date" ∈ dict_fields →
        (PyVal.vint 1999).isD = true ∨ PyVal.vint 1999 = PyVal.vnone) →
      Paper.setitem Paper.mkInit "date" (PyVal.vint 1999)
        = (setAssoc Paper.mkInit "date" (PyVal.vint 1999), Option.none)) ∧
    (∀ e, (Paper.setitem Paper.mkInit "date" (PyVal.vint 1999)).2 = some e →
      (Paper.setitem Paper.mkInit "date" (PyVal.vint 1999)).1 = Paper.mkInit) :=
  claim_C9_setitem Paper.mkInit "date" (PyVal.vint 1999) rfl

theorem mapM_joinUp_ok : ∀ (l : List (PyVal × PyVal)),
    (∀ q ∈ l, (asStr q.1).isSome ∧ (asStr q.2).isSome) →
    l.mapM joinUp = .ok (l.map fmtPair) := by
  intro l
  induction l with
  | nil =>
    intro _
    rfl
  | cons q t ih =>
    intro h
    rcases h q (List.mem_cons_self q t) with ⟨h1, h2⟩
    rcases Option.isSome_iff_exists.mp h1 with ⟨a, ha⟩
    rcases Option.isSome_iff_exists.mp h2 with ⟨b, hb⟩
    have hj : joinUp q = .ok (pyUpper (a ++ " " ++ b)) := by
      unfold joinUp
      rw [ha, hb]
    have hf : fmtPair q = pyUpper (a ++ " " ++ b) := by
      unfold fmtPair
      rw [ha, hb]
      rfl
    rw [List.mapM_cons, hj, ih (fun x hx => h x (List.mem_cons_of_mem q hx)),
      List.map_cons, hf]
    rfl

/-! ## Claim C10 -/

/-- Claim C10 counterexample: a reachable `Paper` whose `aulast` is a list
while `auinit` is still `None` — `authors()` raises `TypeError`
(`zip(list, None)`) instead of returning a list. -/
theorem claim_C10_counterexample :
    pyLookup badPaper "aulast" ≠ PyVal.vnone ∧
      badPaper.authors = .error PyErr.typeError :=
  ⟨fun h => PyVal.noConfusion h, rfl⟩

/-- Claim C10, amended: `authors()` returns `[]` when `aulast` is `None`;
when `aulast` and `auinit` are both lists whose zipped entries are strings,
it returns one uppercased `' '.join([a, l])` per zipped pair, so the result
length is `min(len(aulast), len(auinit))` (the call reads but never writes
the `Paper`, which the embedding reflects by returning only the value). -/
theorem claim_C10_authors (p : Paper) (aus ins : List PyVal) :
    (pyLookup p "aulast" = PyVal.vnone → p.authors = .ok []) ∧
    (pyLookup p "aulast" = PyVal.vlist aus →
      pyLookup p "auinit" = PyVal.vlist ins →
      (∀ q ∈ aus.zip ins, (asStr q.1).isSome ∧ (asStr q.2).isSome) →
      p.authors = .ok ((aus.zip ins).map fmtPair) ∧
      ((aus.zip ins).map fmtPair).length = min aus.length ins.length) := by
  constructor
  · intro h
    unfold Paper.authors
    rw [h]
  · intro h1 h2 hstr
    constructor
    · unfold Paper.authors
      rw [h1, h2]
      show (aus.zip ins).mapM joinUp = .ok ((aus.zip ins).map fmtPair)
      exact mapM_joinUp_ok _ hstr
    · rw [List.length_map, List.length_zip]

/-- Claim C10 witness: on a `Paper` with `aulast = ["smith"]` and
`auinit = ["j"]`, `authors()` returns the one formatted name. -/
theorem claim_C10_witness :
    okPaper.authors =
        .ok (([PyVal.vstr "smith"].zip [PyVal.vstr "j"]).map fmtPair) ∧
      (([PyVal.vstr "smith"].zip [PyVal.vstr "j"]).map fmtPair).length =
        min [PyVal.vstr "smith"].length [PyVal.vstr "j"].length :=
  (claim_C10_authors okPaper [PyVal.vstr "smith"] [PyVal.vstr "j"]).2 rfl rfl
    (by
      intro q hq
      rcases List.mem_singleton.mp hq with rfl
      exact ⟨rfl, rfl⟩)
